import Mathlib

/-!
Verification of the shared game-state engine of the "Bingo do Fabão" repository.

The definitions below are a shallow embedding of the TypeScript source:

* `Cell`, `BingoCardData`, `GeneratedCard`, `SharedGameState`, … mirror `types.ts`.
* `checkForWinner` mirrors the copy in `src/services/gameState.ts` (lines 9-28),
  which is byte-identical to the copy in `src/unnamed/part_000` (lines 86-105):
  in `line` mode it checks the five columns and then the five rows.
* `checkForWinnerDiag` mirrors the copy in `src/unnamed/part_003` (lines 6-28),
  byte-identical to the one in `src/components/AdminPanel.tsx` and to
  `checkForBingo` in `src/App.tsx`: it additionally checks the two diagonals.
  (Both functions are called `checkForWinner` in the source; the second is
  renamed here because Lean does not allow two top-level defs of one name.)
* JavaScript `Set<number>` values are modelled by the `List Nat` they were
  built from and queried through `List.contains`, which has exactly the
  membership behaviour of `Set.has`.
* Indexing `col[i]` past the end of a JS array yields `undefined`, which
  satisfies neither `num === 'LIVRE'` nor `numbers.has(num)`; this is modelled
  by `List.get?` together with `entryMarked`, where `none` is never marked.
* JS objects used as string-keyed maps with a `|| 0` / `undefined` default
  (`playerWins`, `playerPreferences`) are modelled as total functions
  `String → Nat` and `String → Option Pref`.
* `Math.random()` draws are modelled by an explicit stream of pre-computed
  values, and unbounded `while` loops over them take an explicit fuel bound;
  a result of `none` means the loop has not yet terminated after `fuel`
  samples.
-/

/-- One cell of a bingo card: a number or the free marker `'LIVRE'`. -/
inductive Cell where
  | num (n : Nat) : Cell
  | livre : Cell
deriving DecidableEq, Repr

/-- The game mode enum `'line' | 'full'` from `types.ts`. -/
inductive GameMode where
  | line : GameMode
  | full : GameMode
deriving DecidableEq, Repr

/-- The marking preference `'auto' | 'manual'` from `types.ts`. -/
inductive Pref where
  | auto : Pref
  | manual : Pref
deriving DecidableEq, Repr

/-- Type `BingoCardData` from `types.ts`: five columns of cells.  In the TS type
only `N` admits the `'LIVRE'` string, but the win checker treats all columns
uniformly, so all columns are lists of `Cell` here. -/
structure BingoCardData where
  B : List Cell
  I : List Cell
  N : List Cell
  G : List Cell
  O : List Cell
deriving DecidableEq, Repr

/-- Type `GeneratedCard` from `types.ts`. -/
structure GeneratedCard where
  id : String
  cardData : BingoCardData
  owner : String
deriving DecidableEq, Repr

/-- The `{cardId, playerName}` record returned by the win checker and stored
in `bingoWinner`. -/
structure Winner where
  cardId : String
  playerName : String
deriving DecidableEq, Repr

/-- Type `User` from `types.ts`. -/
structure User where
  name : String
  password : Option String
  pixKey : String
deriving DecidableEq, Repr

/-- Type `ScheduledGame` from `types.ts`. -/
structure ScheduledGame where
  id : Int
  startTime : String
deriving DecidableEq, Repr

/-- The `invalidBingoClaim` cooldown marker `{playerName, timestamp}`. -/
structure InvalidClaim where
  playerName : String
  timestamp : Int
deriving DecidableEq, Repr

/-- The `lastReaction` record `{type, timestamp}` from `types.ts`. -/
structure Reaction where
  rtype : String
  timestamp : Int
deriving DecidableEq, Repr

/-- Type `SharedGameState` from `types.ts`: the singleton shared record. -/
structure SharedGameState where
  users : List User
  onlineUsers : List String
  generatedCards : List GeneratedCard
  drawnNumbers : List Nat
  isGameActive : Bool
  bingoWinner : Option Winner
  playerWins : String → Nat
  gameMode : GameMode
  scheduledGames : List ScheduledGame
  preGameCountdown : Option Int
  gameStartingId : Option Int
  playerPreferences : String → Option Pref
  invalidBingoClaim : Option InvalidClaim
  lastReaction : Option Reaction

/-- The `initialState` record of `GameStateService` in `gameState.ts`. -/
def initialState : SharedGameState where
  users := [{ name := "admin", password := some "admin", pixKey := "admin" }]
  onlineUsers := []
  generatedCards := []
  drawnNumbers := []
  isGameActive := false
  bingoWinner := none
  playerWins := fun _ => 0
  gameMode := GameMode.line
  scheduledGames := []
  preGameCountdown := none
  gameStartingId := none
  playerPreferences := fun _ => none
  invalidBingoClaim := none
  lastReaction := none

/-- The filter `typeof n === 'number'` applied to a cell. -/
def Cell.toNumber : Cell → Option Nat
  | Cell.num n => some n
  | Cell.livre => none

/-- Function `allNumbersOnCard`: every numeric cell of the card, columns B,I,N,G,O in
order, `'LIVRE'` filtered out. -/
def allNumbersOnCard (cd : BingoCardData) : List Nat :=
  (cd.B ++ cd.I ++ cd.N ++ cd.G ++ cd.O).filterMap Cell.toNumber

/-- The body of `checkLine`: `num === 'LIVRE' || numbers.has(num)`. -/
def cellMarked (numbers : List Nat) : Cell → Bool
  | Cell.livre => true
  | Cell.num n => numbers.contains n

/-- Function `checkLine` from the win checkers: every entry of the line is the free
cell or a drawn number. -/
def checkLine (numbers : List Nat) (line : List Cell) : Bool :=
  line.all (cellMarked numbers)

/-- A line entry obtained by indexing (`col[i]`): `none` models the JS value
`undefined`, which is never marked. -/
def entryMarked (numbers : List Nat) : Option Cell → Bool
  | none => false
  | some c => cellMarked numbers c

/-- The per-card body of `checkForWinner` from `gameState.ts` / `part_000`:
`full` mode checks every number on the card; `line` mode checks the five
columns and then the five cross-column rows.  This copy has no diagonal
check. -/
def cardWins (numbers : List Nat) (mode : GameMode) (card : GeneratedCard) : Bool :=
  match mode with
  | GameMode.full => (allNumbersOnCard card.cardData).all numbers.contains
  | GameMode.line =>
      let columns := [card.cardData.B, card.cardData.I, card.cardData.N,
                      card.cardData.G, card.cardData.O]
      columns.any (checkLine numbers) ||
        (List.range 5).any fun i =>
          (columns.map fun col => col.get? i).all (entryMarked numbers)

/-- Function `checkForWinner` as defined in `src/services/gameState.ts` (lines 9-28)
and `src/unnamed/part_000` (lines 86-105): scans the candidate cards in
order and returns the first card for which `cardWins` holds. -/
def checkForWinner (cards : List GeneratedCard) (numbers : List Nat)
    (mode : GameMode) : Option Winner :=
  cards.findSome? fun card =>
    if cardWins numbers mode card then some ⟨card.id, card.owner⟩ else none

/-- The per-card body of the `checkForWinner` copy in `src/unnamed/part_003`
(lines 6-28), `src/components/AdminPanel.tsx` and `checkForBingo` in
`src/App.tsx`: columns, then rows, then the two diagonals. -/
def cardWinsDiag (numbers : List Nat) (mode : GameMode) (card : GeneratedCard) : Bool :=
  match mode with
  | GameMode.full => (allNumbersOnCard card.cardData).all numbers.contains
  | GameMode.line =>
      let cd := card.cardData
      let columns := [cd.B, cd.I, cd.N, cd.G, cd.O]
      let diag1 := [cd.B.get? 0, cd.I.get? 1, cd.N.get? 2, cd.G.get? 3, cd.O.get? 4]
      let diag2 := [cd.B.get? 4, cd.I.get? 3, cd.N.get? 2, cd.G.get? 1, cd.O.get? 0]
      columns.any (checkLine numbers) ||
        (List.range 5).any (fun i =>
          (columns.map fun col => col.get? i).all (entryMarked numbers)) ||
        diag1.all (entryMarked numbers) || diag2.all (entryMarked numbers)

/-- The `checkForWinner` copy that does include the diagonal checks
(`part_003` / `AdminPanel.tsx` / `App.tsx`; renamed, see module comment). -/
def checkForWinnerDiag (cards : List GeneratedCard) (numbers : List Nat)
    (mode : GameMode) : Option Winner :=
  cards.findSome? fun card =>
    if cardWinsDiag numbers mode card then some ⟨card.id, card.owner⟩ else none

/-- The object-spread update `{...playerWins, [name]: (playerWins[name] || 0) + 1}`
used by `setWinner` and the winning branch of `claimBingo`. -/
def bumpWin (wins : String → Nat) (p : String) : String → Nat :=
  fun q => if q = p then wins p + 1 else wins q

/-- The update function of `claimBingo` in `gameState.ts` (lines 204-235),
run by `fetchAndApplyUpdate` against the freshly fetched state `current`.
Returning `none` models the update function returning `null` (no write).
`drawnNumbers` is the `Set<number>` argument supplied by the caller and `now`
models `Date.now()`. -/
def claimBingo (current : SharedGameState) (playerName cardId : String)
    (drawnNumbers : List Nat) (gameMode : GameMode) (now : Int) :
    Option SharedGameState :=
  if current.bingoWinner.isSome
      || current.invalidBingoClaim.any (fun ic => ic.playerName == playerName) then
    none
  else
    match current.generatedCards.find?
        (fun c => c.id == cardId && c.owner == playerName) with
    | none => none
    | some claimedCard =>
        if (checkForWinner [claimedCard] drawnNumbers gameMode).isSome then
          some { current with
                  bingoWinner := some ⟨cardId, playerName⟩,
                  isGameActive := false,
                  invalidBingoClaim := none,
                  playerWins := bumpWin current.playerWins playerName }
        else
          some { current with
                  invalidBingoClaim := some ⟨playerName, now⟩ }

/-- The `do { newNumber = Math.floor(Math.random() * 75) + 1 } while
(drawnSet.has(newNumber))` loop of `drawNextNumber`.  `stream i` is the value
`Math.floor(Math.random() * 75)` of the i-th iteration; the loop keeps the
first candidate `stream i + 1` not already drawn.  `fuel` bounds how many
samples are inspected; `none` means the loop has not terminated within
`fuel` samples. -/
def drawLoop (drawn : List Nat) (stream : Nat → Fin 75) : Nat → Option Nat
  | 0 => none
  | fuel + 1 =>
      let newNumber := (stream 0).val + 1
      if drawn.contains newNumber then
        drawLoop drawn (fun i => stream (i + 1)) fuel
      else
        some newNumber

/-- The update function of `drawNextNumber` in `gameState.ts` (lines 166-181)
and `part_003` (lines 164-177): a no-op (`none`) when 75 numbers are drawn,
the game is inactive, or a winner exists; otherwise it appends the first
fresh sample and clears `invalidBingoClaim`. -/
def drawNextNumber (current : SharedGameState) (stream : Nat → Fin 75)
    (fuel : Nat) : Option SharedGameState :=
  if 75 ≤ current.drawnNumbers.length || !current.isGameActive
      || current.bingoWinner.isSome then
    none
  else
    (drawLoop current.drawnNumbers stream fuel).map fun newNumber =>
      { current with
          drawnNumbers := current.drawnNumbers ++ [newNumber],
          invalidBingoClaim := none }

/-- The update function of `setWinner` in `gameState.ts` (lines 183-193) and
`part_003` (lines 179-189): unconditional. -/
def setWinner (current : SharedGameState) (winner : Winner) : SharedGameState :=
  { current with
      bingoWinner := some winner,
      isGameActive := false,
      invalidBingoClaim := none,
      playerWins := bumpWin current.playerWins winner.playerName }

/-- The update function of `startNextGameCycle` in `gameState.ts`
(lines 153-164). -/
def startNextGameCycle (current : SharedGameState) : SharedGameState :=
  { current with
      drawnNumbers := [],
      bingoWinner := none,
      isGameActive := false,
      preGameCountdown := some 20,
      generatedCards := [],
      playerPreferences := fun _ => none,
      invalidBingoClaim := none,
      lastReaction := none }

/-- The update of `resetGame` in `part_003` (lines 119-132).  Note that it
also clears `onlineUsers` and `playerWins`. -/
def resetGame (current : SharedGameState) : SharedGameState :=
  { current with
      drawnNumbers := [],
      bingoWinner := none,
      isGameActive := false,
      preGameCountdown := none,
      gameStartingId := none,
      generatedCards := [],
      onlineUsers := [],
      playerWins := fun _ => 0,
      playerPreferences := fun _ => none,
      invalidBingoClaim := none }

/-- The passive (auto-marking) winner check `checkWinnerAsync` of
`src/unnamed/part_000` (lines 297-319), as the winner it would pass to
`setWinner` (`none` means it returns without calling `setWinner`).
`currentUserName` is the logged-in user of the session running the check. -/
def checkWinnerAsync (state : SharedGameState) (currentUserName : Option String) :
    Option Winner :=
  if currentUserName != some "admin" || !state.isGameActive
      || state.bingoWinner.isSome || decide (state.drawnNumbers.length < 5) then
    none
  else
    let owners := state.generatedCards.map (fun c => c.owner)
    let isAutoPlayer : String → Bool := fun p =>
      match state.playerPreferences p with
      | some Pref.auto => true
      | some Pref.manual => false
      | none => owners.contains p
    let cardsToCheck := state.generatedCards.filter fun card => isAutoPlayer card.owner
    checkForWinner cardsToCheck state.drawnNumbers state.gameMode

/-- A session of `GameStateService` in `gameState.ts`: `localState` is the
in-memory `this.state` cache returned by `getState`, `persisted` is the
singleton row in the durable store that `fetchAndApplyUpdate` reads and
writes. -/
structure Session where
  localState : SharedGameState
  persisted : SharedGameState

/-- Method `getState()` from `gameState.ts` (lines 95-97): returns the local cache. -/
def getState (s : Session) : SharedGameState :=
  s.localState

/-- Method `fetchAndApplyUpdate` from `gameState.ts` (lines 285-321): fetches the
persisted row, runs the update function on it, and on a non-null result
upserts the merged record.  The update function here returns the already
merged record `{...currentState, ...updates}` (every updater in the service
is of that shape).  Crucially, the local cache is not touched: the code
comments that the realtime subscription alone updates `this.state`. -/
def fetchAndApplyUpdate (s : Session)
    (updateFn : SharedGameState → Option SharedGameState) : Session :=
  match updateFn s.persisted with
  | none => s
  | some newState => { s with persisted := newState }

/-- Delivery of the realtime broadcast for the current persisted row
(`setupRealtimeSubscription`, lines 254-279): the session's local cache is
replaced by the broadcast record. -/
def applyBroadcast (s : Session) : Session :=
  { s with localState := s.persisted }

/-- One column loop of `createValidBingoCard` in `src/services/supabaseClient.ts`
(the `geminiService` document, lines 15-40): `while (colNumbers.size < count)`
adds `Math.floor(Math.random() * 15) + lo` to a set; the set keeps insertion
order and is finally sorted ascending.  `stream i` is the i-th value of
`Math.floor(Math.random() * 15)`, `acc` the set as an insertion-ordered
duplicate-free list, and `fuel` bounds the number of samples inspected. -/
def fillCol (lo count : Nat) (stream : Nat → Fin 15) :
    Nat → List Nat → Option (List Nat)
  | fuel, acc =>
      if count ≤ acc.length then
        some (acc.insertionSort (· ≤ ·))
      else
        match fuel with
        | 0 => none
        | fuel' + 1 =>
            let num := lo + (stream 0).val
            fillCol lo count (fun i => stream (i + 1)) fuel'
              (if acc.contains num then acc else acc ++ [num])

/-- Function `createValidBingoCard` from `src/services/supabaseClient.ts` (lines 15-40):
five numbers per column from that column's band (`B` 1-15, `I` 16-30, `N`
31-45 with only four numbers, `G` 46-60, `O` 61-75), then `'LIVRE'` spliced
into index 2 of column `N`.  Each column consumes its own sequence of
`Math.random` samples. -/
def createValidBingoCard (sB sI sN sG sO : Nat → Fin 15) (fuel : Nat) :
    Option BingoCardData :=
  (fillCol 1 5 sB fuel []).bind fun b =>
  (fillCol 16 5 sI fuel []).bind fun i =>
  (fillCol 31 4 sN fuel []).bind fun n =>
  (fillCol 46 5 sG fuel []).bind fun g =>
  (fillCol 61 5 sO fuel []).bind fun o =>
  some { B := b.map Cell.num,
         I := i.map Cell.num,
         N := (n.map Cell.num).insertIdx 2 Cell.livre,
         G := g.map Cell.num,
         O := o.map Cell.num }

/-! Concrete fixtures used by counterexamples and witnesses. -/

/-- A well-formed card owned by `alice` whose only completable line in the
scenario below is the main diagonal `B[0], I[1], N[2], G[3], O[4]`. -/
def diagCard : GeneratedCard :=
  { id := "card-1", owner := "alice",
    cardData :=
      { B := [Cell.num 1, Cell.num 2, Cell.num 3, Cell.num 4, Cell.num 5],
        I := [Cell.num 16, Cell.num 17, Cell.num 18, Cell.num 19, Cell.num 20],
        N := [Cell.num 31, Cell.num 32, Cell.livre, Cell.num 34, Cell.num 35],
        G := [Cell.num 46, Cell.num 47, Cell.num 48, Cell.num 49, Cell.num 50],
        O := [Cell.num 61, Cell.num 62, Cell.num 63, Cell.num 64, Cell.num 65] } }

/-- An active game holding `diagCard`, nothing drawn yet. -/
def s0 : SharedGameState :=
  { initialState with isGameActive := true, generatedCards := [diagCard] }

/-- The state `s0` after `alice` has been declared the winner. -/
def sWin : SharedGameState :=
  { s0 with bingoWinner := some ⟨"card-1", "alice"⟩ }

/-- The state `s0` with one number drawn. -/
def sDrawn1 : SharedGameState :=
  { s0 with drawnNumbers := [1] }

/-- A state whose draw history already has 75 entries. -/
def sFull75 : SharedGameState :=
  { s0 with drawnNumbers := List.replicate 75 1 }

/-- A random stream that always produces the sample 0 (candidate number 1). -/
def constStream75 : Nat → Fin 75 := fun _ => ⟨0, by decide⟩

/-- A random stream that always produces the sample 1 (candidate number 2). -/
def oneStream75 : Nat → Fin 75 := fun _ => ⟨1, by decide⟩

/-- C1.  The claim states that the win checker declares a card a winner when
one of its two diagonals is completely drawn.  The `checkForWinner` copy in
`src/services/gameState.ts` (the one `claimBingo` validates with) and in
`src/unnamed/part_000` checks only the five columns and the five rows: on a
card whose main diagonal `1, 17, LIVRE, 49, 65` is fully drawn it finds no
winner, while the in-sync copies (`part_003`, `AdminPanel.tsx`, `App.tsx`,
here `checkForWinnerDiag`) do return the card.  This contradicts the
`gameState.ts` comment that the function must be kept in sync with
`App.tsx`, so the claim describes the intent and the `gameState.ts` copy is
the slip. -/
theorem checkForWinner_misses_diagonal :
    checkForWinner [diagCard] [1, 17, 49, 65] GameMode.line = none ∧
    checkForWinnerDiag [diagCard] [1, 17, 49, 65] GameMode.line
      = some ⟨"card-1", "alice"⟩ :=
  ⟨by decide, by decide⟩

/-- C10.  For every state, also one that already has a winner, `setWinner w`
sets `bingoWinner := w`, deactivates the game, clears the invalid-claim
marker, and increments exactly the winner's win count by one. -/
theorem setWinner_spec (current : SharedGameState) (w : Winner) :
    (setWinner current w).bingoWinner = some w ∧
    (setWinner current w).isGameActive = false ∧
    (setWinner current w).invalidBingoClaim = none ∧
    (∀ p, (setWinner current w).playerWins p =
      if p = w.playerName then current.playerWins p + 1 else current.playerWins p) := by
  refine ⟨rfl, rfl, rfl, fun p => ?_⟩
  by_cases h : p = w.playerName <;> simp [setWinner, bumpWin, h]

/-- C6 counterexample.  The claim says reset leaves `playerWins` exactly as
it was; `resetGame` in `part_003` resets the win table to the empty object,
so a player with two recorded wins has zero after the reset. -/
theorem resetGame_clears_playerWins :
    (resetGame { initialState with
        playerWins := fun p => if p = "alice" then 2 else 0 }).playerWins "alice"
      ≠ ({ initialState with
        playerWins := fun p => if p = "alice" then 2 else 0 }
          : SharedGameState).playerWins "alice" := by
  decide

/-- C6 amended.  Both reset-like updates clear the per-game fields (drawn
numbers, cards, winner, claims, preferences) and leave `users` unchanged,
and both are idempotent; but `resetGame` (`part_003`) also clears
`onlineUsers` and `playerWins`, while `startNextGameCycle` (`gameState.ts`)
preserves `users`, `playerWins` and `onlineUsers` (and starts a 20-second
countdown). -/
theorem reset_spec (s : SharedGameState) :
    (resetGame s).users = s.users ∧
    (resetGame s).drawnNumbers = [] ∧
    (resetGame s).generatedCards = [] ∧
    (resetGame s).bingoWinner = none ∧
    (resetGame s).invalidBingoClaim = none ∧
    (∀ p, (resetGame s).playerPreferences p = none) ∧
    (∀ p, (resetGame s).playerWins p = 0) ∧
    (resetGame s).onlineUsers = [] ∧
    resetGame (resetGame s) = resetGame s ∧
    (startNextGameCycle s).users = s.users ∧
    (startNextGameCycle s).playerWins = s.playerWins ∧
    (startNextGameCycle s).onlineUsers = s.onlineUsers ∧
    (startNextGameCycle s).drawnNumbers = [] ∧
    (startNextGameCycle s).generatedCards = [] ∧
    (startNextGameCycle s).bingoWinner = none ∧
    (startNextGameCycle s).invalidBingoClaim = none ∧
    (∀ p, (startNextGameCycle s).playerPreferences p = none) ∧
    startNextGameCycle (startNextGameCycle s) = startNextGameCycle s :=
  ⟨rfl, rfl, rfl, rfl, rfl, fun _ => rfl, fun _ => rfl, rfl, rfl, rfl, rfl,
   rfl, rfl, rfl, rfl, rfl, fun _ => rfl, rfl⟩

/-- C4.  Once `bingoWinner` is set, a draw, a bingo claim, and the admin's
passive auto-marking check are all no-ops (each returns `none`, i.e. no
state write and no `setWinner` call), so `bingoWinner` is unchanged until a
reset. -/
theorem winner_locks_state (state : SharedGameState) (w : Winner)
    (stream : Nat → Fin 75) (fuel : Nat) (p c : String) (ns : List Nat)
    (mode : GameMode) (now : Int) (uname : Option String)
    (h : state.bingoWinner = some w) :
    drawNextNumber state stream fuel = none ∧
    claimBingo state p c ns mode now = none ∧
    checkWinnerAsync state uname = none := by
  refine ⟨?_, ?_, ?_⟩ <;> simp [drawNextNumber, claimBingo, checkWinnerAsync, h]

/-- C4 witness at a concrete winning state. -/
theorem winner_locks_state_witness :
    drawNextNumber sWin constStream75 5 = none ∧
    claimBingo sWin "alice" "card-1" [1, 2, 3, 4, 5] GameMode.line 0 = none ∧
    checkWinnerAsync sWin (some "admin") = none :=
  winner_locks_state sWin ⟨"card-1", "alice"⟩ constStream75 5 "alice" "card-1"
    [1, 2, 3, 4, 5] GameMode.line 0 (some "admin") rfl

/-- C5.  When a winner already exists, or the claimant has an active
invalid-claim cooldown marker, or no card with the given id is owned by the
claimant, the `claimBingo` update function returns `null`, and
`fetchAndApplyUpdate` then performs no write at all (hence nothing is
persisted and no broadcast follows). -/
theorem claimBingo_silent_rejection (sess : Session) (p c : String)
    (ns : List Nat) (mode : GameMode) (now : Int)
    (h : sess.persisted.bingoWinner.isSome = true ∨
      sess.persisted.invalidBingoClaim.any (fun ic => ic.playerName == p) = true ∨
      sess.persisted.generatedCards.find?
        (fun card => card.id == c && card.owner == p) = none) :
    claimBingo sess.persisted p c ns mode now = none ∧
    fetchAndApplyUpdate sess (fun cur => claimBingo cur p c ns mode now) = sess := by
  have hnone : claimBingo sess.persisted p c ns mode now = none := by
    rcases h with h | h | h
    · simp [claimBingo, h]
    · simp [claimBingo, h]
    · unfold claimBingo
      cases hg : (sess.persisted.bingoWinner.isSome
          || sess.persisted.invalidBingoClaim.any (fun ic => ic.playerName == p)) with
      | true => simp
      | false => simp [h]
  exact ⟨hnone, by simp [fetchAndApplyUpdate, hnone]⟩

/-- C5 witness: a claim made while a winner exists is silently rejected. -/
theorem claimBingo_silent_rejection_witness :
    claimBingo (Session.mk sWin sWin).persisted "alice" "card-1" [1, 2, 3, 4, 5]
      GameMode.line 0 = none ∧
    fetchAndApplyUpdate (Session.mk sWin sWin)
      (fun cur => claimBingo cur "alice" "card-1" [1, 2, 3, 4, 5] GameMode.line 0)
      = Session.mk sWin sWin :=
  claimBingo_silent_rejection (Session.mk sWin sWin) "alice" "card-1"
    [1, 2, 3, 4, 5] GameMode.line 0 (Or.inl (by decide))

/-- The merged record committed by a `setGameMode('full')`-style update. -/
def mergedFull : SharedGameState := { initialState with gameMode := GameMode.full }

/-- A session whose local cache and persisted row both hold `initialState`. -/
def sess0 : Session := ⟨initialState, initialState⟩

/-- An update function that returns a non-null partial state (the merged
record with `gameMode := 'full'`), as `setGameMode` does. -/
def fnSetFull : SharedGameState → Option SharedGameState :=
  fun cur => some { cur with gameMode := GameMode.full }

/-- C7 counterexample.  The update commits the merged record to the
persisted row, but `getState` right after the update still returns the old
local cache: `fetchAndApplyUpdate` deliberately does not touch
`this.state`, leaving it to the realtime broadcast.  So a read in the same
session immediately after the update does not observe its own write. -/
theorem getState_misses_own_write :
    fnSetFull sess0.persisted = some mergedFull ∧
    (fetchAndApplyUpdate sess0 fnSetFull).persisted = mergedFull ∧
    getState (fetchAndApplyUpdate sess0 fnSetFull) ≠ mergedFull := by
  refine ⟨rfl, rfl, fun h => ?_⟩
  have h2 := congrArg SharedGameState.gameMode h
  exact absurd h2 (by decide)

/-- C7 amended.  A non-null update commits the merged record to the
persisted singleton row, while `getState` in the same session keeps
answering the pre-update local cache; only after the broadcast for the
committed row is delivered does `getState` return the new record. -/
theorem fetchAndApplyUpdate_spec (sess : Session)
    (fn : SharedGameState → Option SharedGameState) (s' : SharedGameState)
    (h : fn sess.persisted = some s') :
    (fetchAndApplyUpdate sess fn).persisted = s' ∧
    getState (fetchAndApplyUpdate sess fn) = getState sess ∧
    getState (applyBroadcast (fetchAndApplyUpdate sess fn)) = s' := by
  simp [fetchAndApplyUpdate, h, getState, applyBroadcast]

/-- C7 amended witness at the concrete session and update of the
counterexample. -/
theorem fetchAndApplyUpdate_spec_witness :
    (fetchAndApplyUpdate sess0 fnSetFull).persisted = mergedFull ∧
    getState (fetchAndApplyUpdate sess0 fnSetFull) = getState sess0 ∧
    getState (applyBroadcast (fetchAndApplyUpdate sess0 fnSetFull)) = mergedFull :=
  fetchAndApplyUpdate_spec sess0 fnSetFull mergedFull rfl

/-- C2 counterexample.  In state `s0` the authoritative history
`drawnNumbers` is empty, so the win checker run against the shared state
finds no winner; yet `claimBingo` called with the claimant-supplied set
`{1,2,3,4,5}` (the client's locally narrated numbers in `part_000`'s
`handleClaimBingo`) declares `alice` the winner.  The validity decision is
therefore not made against the drawn-number history stored in the shared
game state. -/
theorem claimBingo_ignores_authoritative_history :
    (claimBingo s0 "alice" "card-1" [1, 2, 3, 4, 5] GameMode.line 0).map
        (fun s => s.bingoWinner) = some (some ⟨"card-1", "alice"⟩) ∧
    s0.drawnNumbers = [] ∧
    checkForWinner s0.generatedCards s0.drawnNumbers s0.gameMode = none :=
  ⟨rfl, rfl, by decide⟩

/-- C2 amended.  `claimBingo` declares a winner exactly when no winner
exists, the claimant has no cooldown marker, the card is found with the
claimant as owner, and the win checker succeeds on the drawn-number set
passed by the caller; the state's own `drawnNumbers` field plays no role in
the decision (second conjunct: changing it commutes with the whole
update). -/
theorem claimBingo_uses_passed_set (current : SharedGameState) (p c : String)
    (ns : List Nat) (mode : GameMode) (now : Int) (d : List Nat) :
    ((∃ s', claimBingo current p c ns mode now = some s' ∧
        s'.bingoWinner = some ⟨c, p⟩) ↔
      (current.bingoWinner = none ∧
       current.invalidBingoClaim.any (fun ic => ic.playerName == p) = false ∧
       ∃ card, current.generatedCards.find?
           (fun cd => cd.id == c && cd.owner == p) = some card ∧
         (checkForWinner [card] ns mode).isSome = true)) ∧
    claimBingo { current with drawnNumbers := d } p c ns mode now
      = (claimBingo current p c ns mode now).map
          (fun s' => { s' with drawnNumbers := d }) := by
  constructor
  · cases hw : current.bingoWinner with
    | some w => simp [claimBingo, hw]
    | none =>
      cases hic : current.invalidBingoClaim.any (fun ic => ic.playerName == p) with
      | true => simp [claimBingo, hw, hic]
      | false =>
        cases hf : current.generatedCards.find?
            (fun cd => cd.id == c && cd.owner == p) with
        | none => simp [claimBingo, hw, hic, hf]
        | some card =>
          cases hwin : (checkForWinner [card] ns mode).isSome with
          | true => simp [claimBingo, hw, hic, hf, hwin]
          | false => simp [claimBingo, hw, hic, hf, hwin]
  · cases hw : current.bingoWinner with
    | some w => simp [claimBingo, hw]
    | none =>
      cases hic : current.invalidBingoClaim.any (fun ic => ic.playerName == p) with
      | true => simp [claimBingo, hw, hic]
      | false =>
        cases hf : current.generatedCards.find?
            (fun cd => cd.id == c && cd.owner == p) with
        | none => simp [claimBingo, hw, hic, hf]
        | some card =>
          cases hwin : (checkForWinner [card] ns mode).isSome with
          | true => simp [claimBingo, hw, hic, hf, hwin]
          | false => simp [claimBingo, hw, hic, hf, hwin]

/-- Any number returned by the rejection-sampling loop lies in `[1, 75]` and
is not among the already drawn numbers. -/
lemma drawLoop_mem (drawn : List Nat) (stream : Nat → Fin 75) (fuel n : Nat)
    (h : drawLoop drawn stream fuel = some n) :
    1 ≤ n ∧ n ≤ 75 ∧ ¬ n ∈ drawn := by
  induction fuel generalizing stream with
  | zero => simp [drawLoop] at h
  | succ k ih =>
    unfold drawLoop at h
    by_cases hc : drawn.contains ((stream 0).val + 1)
    · rw [if_pos hc] at h
      exact ih _ h
    · rw [if_neg hc] at h
      cases h
      refine ⟨Nat.succ_le_succ (Nat.zero_le _), ?_, ?_⟩
      · have := (stream 0).isLt
        omega
      · simpa using hc

/-- C3.  A draw is a no-op when 75 numbers are drawn, the game is inactive,
or a winner exists; otherwise, whenever it commits a new state, it appends
exactly one number of `[1, 75]` that was not yet drawn, so the old sequence
is a prefix of the new one, freedom from duplicates is preserved and the
length stays at most 75. -/
theorem drawNextNumber_spec (current : SharedGameState) (stream : Nat → Fin 75)
    (fuel : Nat) :
    ((75 ≤ current.drawnNumbers.length ∨ current.isGameActive = false ∨
        current.bingoWinner ≠ none) → drawNextNumber current stream fuel = none) ∧
    (∀ s', drawNextNumber current stream fuel = some s' →
      ∃ n, 1 ≤ n ∧ n ≤ 75 ∧ ¬ n ∈ current.drawnNumbers ∧
        s'.drawnNumbers = current.drawnNumbers ++ [n] ∧
        current.drawnNumbers.length < 75 ∧
        s'.drawnNumbers.length ≤ 75 ∧
        (current.drawnNumbers.Nodup → s'.drawnNumbers.Nodup)) := by
  constructor
  · rintro (h | h | h)
    · simp [drawNextNumber, h]
    · simp [drawNextNumber, h]
    · have hs : current.bingoWinner.isSome = true := Option.ne_none_iff_isSome.mp h
      simp [drawNextNumber, hs]
  · intro s' h
    unfold drawNextNumber at h
    split at h
    · exact absurd h (by simp)
    · rename_i hcond
      simp only [Bool.or_eq_true, decide_eq_true_eq, Bool.not_eq_true',
        Option.isSome_iff_exists, not_or] at hcond
      cases hdl : drawLoop current.drawnNumbers stream fuel with
      | none => rw [hdl] at h; exact absurd h (by simp)
      | some n =>
        rw [hdl] at h
        simp only [Option.map_some'] at h
        obtain ⟨h1, h2, h3⟩ := drawLoop_mem current.drawnNumbers stream fuel n hdl
        cases h
        refine ⟨n, h1, h2, h3, rfl, ?_, ?_, ?_⟩
        · have := hcond.1.1
          omega
        · show (current.drawnNumbers ++ [n]).length ≤ 75
          have := hcond.1.1
          simp only [List.length_append, List.length_singleton]
          omega
        · intro hd
          show (current.drawnNumbers ++ [n]).Nodup
          simp [List.nodup_append, hd, h3]

/-- C3 witness: a full history blocks drawing and a draw on the empty
history appends the single sampled number 1. -/
theorem drawNextNumber_spec_witness :
    drawNextNumber sFull75 constStream75 1 = none ∧
    (∃ n, 1 ≤ n ∧ n ≤ 75 ∧ ¬ n ∈ s0.drawnNumbers ∧
      ({ s0 with drawnNumbers := [1], invalidBingoClaim := none }
          : SharedGameState).drawnNumbers = s0.drawnNumbers ++ [n] ∧
      s0.drawnNumbers.length < 75 ∧
      ({ s0 with drawnNumbers := [1], invalidBingoClaim := none }
          : SharedGameState).drawnNumbers.length ≤ 75 ∧
      (s0.drawnNumbers.Nodup →
        ({ s0 with drawnNumbers := [1], invalidBingoClaim := none }
            : SharedGameState).drawnNumbers.Nodup)) :=
  ⟨(drawNextNumber_spec sFull75 constStream75 1).1 (Or.inl (by decide)),
   (drawNextNumber_spec s0 constStream75 1).2
     { s0 with drawnNumbers := [1], invalidBingoClaim := none } rfl⟩

/-- C8 counterexample.  The rejection-sampling loop of `drawNextNumber` has
no a-priori bound on its attempts: in a state with one drawn number (so 74
of 75 remain available), for every proposed bound `N` the sample sequence
that keeps producing the already-drawn number makes the loop fail to
terminate within `N` attempts.  Termination relies on the sampler
eventually producing a fresh value, not on a fixed attempt bound. -/
theorem drawNextNumber_attempts_unbounded :
    ¬ ∃ N : Nat, ∀ stream : Nat → Fin 75,
      (drawNextNumber sDrawn1 stream N).isSome = true := by
  rintro ⟨N, hN⟩
  have hconst : ∀ k, drawLoop [1] constStream75 k = none := by
    intro k
    induction k with
    | zero => rfl
    | succ k ih =>
      show drawLoop [1] constStream75 (k + 1) = none
      unfold drawLoop
      rw [if_pos (by decide)]
      exact ih
  have h := hN constStream75
  have hnone : drawNextNumber sDrawn1 constStream75 N = none := by
    simp [drawNextNumber, sDrawn1, s0, initialState, hconst N]
  rw [hnone] at h
  simp at h

/-- The loop stops as soon as the sample stream offers an undrawn number:
if attempt `i` is fresh and the loop may run at least `i + 1` attempts, it
returns a number. -/
lemma drawLoop_succeeds (drawn : List Nat) :
    ∀ (i : Nat) (stream : Nat → Fin 75) (fuel : Nat), i < fuel →
      ¬ ((stream i).val + 1) ∈ drawn →
      (drawLoop drawn stream fuel).isSome = true := by
  intro i
  induction i with
  | zero =>
    intro stream fuel hlt hmem
    cases fuel with
    | zero => omega
    | succ k =>
      unfold drawLoop
      rw [if_neg (by simpa using hmem)]
      rfl
  | succ j ih =>
    intro stream fuel hlt hmem
    cases fuel with
    | zero => omega
    | succ k =>
      unfold drawLoop
      by_cases hc : drawn.contains ((stream 0).val + 1)
      · rw [if_pos hc]
        exact ih (fun n => stream (n + 1)) k (by omega) hmem
      · rw [if_neg hc]
        rfl

/-- C8 amended.  At 75 of 75 drawn (and in fact whenever the history holds
75 entries) no draw is issued at all; the sampling loop terminates as soon
as the sample stream produces any undrawn candidate (within `i + 1`
attempts when attempt `i` is the first fresh one); and while fewer than 75
numbers are drawn an undrawn candidate in `[1, 75]` always exists — so
termination is guaranteed for every sampler that eventually hits one, but
there is no fixed bound valid for all sample sequences. -/
theorem drawNextNumber_termination (current : SharedGameState)
    (stream : Nat → Fin 75) (fuel i : Nat) :
    (75 ≤ current.drawnNumbers.length → drawNextNumber current stream fuel = none) ∧
    (i < fuel → ¬ ((stream i).val + 1) ∈ current.drawnNumbers →
      (drawLoop current.drawnNumbers stream fuel).isSome = true) ∧
    (current.drawnNumbers.length < 75 →
      ∃ m, 1 ≤ m ∧ m ≤ 75 ∧ ¬ m ∈ current.drawnNumbers) := by
  refine ⟨fun h => by simp [drawNextNumber, h], ?_, ?_⟩
  · intro hlt hmem
    exact drawLoop_succeeds current.drawnNumbers i stream fuel hlt hmem
  · intro hlen
    by_contra hno
    push_neg at hno
    have hsub : Finset.Icc 1 75 ⊆ current.drawnNumbers.toFinset := by
      intro x hx
      rw [Finset.mem_Icc] at hx
      rw [List.mem_toFinset]
      exact hno x hx.1 hx.2
    have h1 := Finset.card_le_card hsub
    have h2 := List.toFinset_card_le current.drawnNumbers
    rw [Nat.card_Icc] at h1
    omega

/-- C8 witness at concrete states: a 75-entry history blocks the draw, a
fresh first sample stops the loop at once, and with one number drawn some
candidate remains. -/
theorem drawNextNumber_termination_witness :
    drawNextNumber sFull75 oneStream75 1 = none ∧
    (drawLoop sDrawn1.drawnNumbers oneStream75 1).isSome = true ∧
    (∃ m, 1 ≤ m ∧ m ≤ 75 ∧ ¬ m ∈ sDrawn1.drawnNumbers) :=
  ⟨(drawNextNumber_termination sFull75 oneStream75 1 0).1 (by decide),
   (drawNextNumber_termination sDrawn1 oneStream75 1 0).2.1 (by decide) (by decide),
   (drawNextNumber_termination sDrawn1 oneStream75 1 0).2.2 (by decide)⟩

/-- When the column loop finishes, it has produced exactly `count` distinct
numbers of the band `[lo, lo + 14]` (sorting at the end preserves all
three properties). -/
lemma fillCol_spec (lo count : Nat) :
    ∀ (fuel : Nat) (stream : Nat → Fin 15) (acc res : List Nat),
      acc.Nodup → (∀ x ∈ acc, lo ≤ x ∧ x < lo + 15) → acc.length ≤ count →
      fillCol lo count stream fuel acc = some res →
      res.Nodup ∧ (∀ x ∈ res, lo ≤ x ∧ x < lo + 15) ∧ res.length = count := by
  intro fuel
  induction fuel with
  | zero =>
    intro stream acc res hnd hr hl h
    unfold fillCol at h
    by_cases hstop : count ≤ acc.length
    · rw [if_pos hstop] at h
      cases h
      refine ⟨((List.perm_insertionSort _ acc).nodup_iff).mpr hnd, ?_, ?_⟩
      · intro x hx
        exact hr x ((List.perm_insertionSort _ acc).mem_iff.mp hx)
      · rw [(List.perm_insertionSort _ acc).length_eq]
        omega
    · rw [if_neg hstop] at h
      simp at h
  | succ k ih =>
    intro stream acc res hnd hr hl h
    unfold fillCol at h
    by_cases hstop : count ≤ acc.length
    · rw [if_pos hstop] at h
      cases h
      refine ⟨((List.perm_insertionSort _ acc).nodup_iff).mpr hnd, ?_, ?_⟩
      · intro x hx
        exact hr x ((List.perm_insertionSort _ acc).mem_iff.mp hx)
      · rw [(List.perm_insertionSort _ acc).length_eq]
        omega
    · rw [if_neg hstop] at h
      dsimp only at h
      by_cases hc : acc.contains (lo + (stream 0).val)
      · rw [if_pos hc] at h
        exact ih _ _ res hnd hr (by omega) h
      · rw [if_neg hc] at h
        refine ih _ _ res ?_ ?_ ?_ h
        · refine List.nodup_append.mpr ⟨hnd, List.nodup_singleton _, ?_⟩
          intro x hx hx'
          rw [List.mem_singleton] at hx'
          subst hx'
          exact hc (by simpa using hx)
        · intro x hx
          rcases List.mem_append.mp hx with hx | hx
          · exact hr x hx
          · rw [List.mem_singleton] at hx
            subst hx
            have := (stream 0).isLt
            omega
        · have : acc.length < count := by omega
          simp only [List.length_append, List.length_singleton]
          omega

/-- Mapping numbers into cells and filtering the numeric cells back out is
the identity. -/
lemma filterMap_toNumber_map_num (l : List Nat) :
    (l.map Cell.num).filterMap Cell.toNumber = l := by
  induction l with
  | nil => rfl
  | cons a t ih => simp [Cell.toNumber, ih]

/-- A column of numeric cells contains no free cell. -/
lemma count_livre_map_num (l : List Nat) :
    (l.map Cell.num).count Cell.livre = 0 := by
  induction l with
  | nil => rfl
  | cons a t ih =>
    rw [List.map_cons, List.count_cons, ih]
    rfl

/-- Every list of length four is a four-element literal. -/
lemma exists_list_four {l : List Nat} (h : l.length = 4) :
    ∃ a b c d, l = [a, b, c, d] := by
  rcases l with _ | ⟨a, l⟩
  · simp at h
  rcases l with _ | ⟨b, l⟩
  · simp at h
  rcases l with _ | ⟨c, l⟩
  · simp at h
  rcases l with _ | ⟨d, l⟩
  · simp at h
  rcases l with _ | ⟨e, l⟩
  · exact ⟨a, b, c, d, rfl⟩
  · simp at h

/-- Two duplicate-free lists separated by a numeric cutoff concatenate to a
duplicate-free list. -/
lemma nodup_append_bands (c : Nat) {l₁ l₂ : List Nat}
    (h₁ : l₁.Nodup) (h₂ : l₂.Nodup)
    (hb₁ : ∀ x ∈ l₁, x < c) (hb₂ : ∀ x ∈ l₂, c ≤ x) :
    (l₁ ++ l₂).Nodup := by
  refine List.nodup_append.mpr ⟨h₁, h₂, fun x hx hy => ?_⟩
  have := hb₁ x hx
  have := hb₂ x hy
  omega

/-- C9.  Every card the generator returns respects the five column bands,
has no number twice anywhere on the card, and has exactly one free cell,
sitting at index 2 (the center) of column N. -/
theorem createValidBingoCard_spec (sB sI sN sG sO : Nat → Fin 15) (fuel : Nat)
    (card : BingoCardData)
    (h : createValidBingoCard sB sI sN sG sO fuel = some card) :
    (∀ n, Cell.num n ∈ card.B → 1 ≤ n ∧ n ≤ 15) ∧
    (∀ n, Cell.num n ∈ card.I → 16 ≤ n ∧ n ≤ 30) ∧
    (∀ n, Cell.num n ∈ card.N → 31 ≤ n ∧ n ≤ 45) ∧
    (∀ n, Cell.num n ∈ card.G → 46 ≤ n ∧ n ≤ 60) ∧
    (∀ n, Cell.num n ∈ card.O → 61 ≤ n ∧ n ≤ 75) ∧
    (allNumbersOnCard card).Nodup ∧
    card.N.get? 2 = some Cell.livre ∧
    (card.B ++ card.I ++ card.N ++ card.G ++ card.O).count Cell.livre = 1 := by
  unfold createValidBingoCard at h
  cases hb : fillCol 1 5 sB fuel [] with
  | none => rw [hb] at h; simp at h
  | some bl =>
  rw [hb, Option.some_bind] at h
  cases hi : fillCol 16 5 sI fuel [] with
  | none => rw [hi] at h; simp at h
  | some il =>
  rw [hi, Option.some_bind] at h
  cases hn : fillCol 31 4 sN fuel [] with
  | none => rw [hn] at h; simp at h
  | some nl =>
  rw [hn, Option.some_bind] at h
  cases hg : fillCol 46 5 sG fuel [] with
  | none => rw [hg] at h; simp at h
  | some gl =>
  rw [hg, Option.some_bind] at h
  cases ho : fillCol 61 5 sO fuel [] with
  | none => rw [ho] at h; simp at h
  | some ol =>
  rw [ho, Option.some_bind] at h
  obtain ⟨hbN, hbR, hbL⟩ := fillCol_spec 1 5 fuel sB [] bl List.nodup_nil (by simp) (by simp) hb
  obtain ⟨hiN, hiR, hiL⟩ := fillCol_spec 16 5 fuel sI [] il List.nodup_nil (by simp) (by simp) hi
  obtain ⟨hnN, hnR, hnL⟩ := fillCol_spec 31 4 fuel sN [] nl List.nodup_nil (by simp) (by simp) hn
  obtain ⟨hgN, hgR, hgL⟩ := fillCol_spec 46 5 fuel sG [] gl List.nodup_nil (by simp) (by simp) hg
  obtain ⟨hoN, hoR, hoL⟩ := fillCol_spec 61 5 fuel sO [] ol List.nodup_nil (by simp) (by simp) ho
  obtain ⟨a, b, c, d, rfl⟩ := exists_list_four hnL
  cases h
  have ha := hnR a (by simp)
  have hb2 := hnR b (by simp)
  have hc2 := hnR c (by simp)
  have hd2 := hnR d (by simp)
  refine ⟨?_, ?_, ?_, ?_, ?_, ?_, ?_, ?_⟩
  · intro n hm
    simp only [List.mem_map, Cell.num.injEq, exists_eq_right] at hm
    have := hbR n hm
    omega
  · intro n hm
    simp only [List.mem_map, Cell.num.injEq, exists_eq_right] at hm
    have := hiR n hm
    omega
  · intro n hm
    have hm' : Cell.num n ∈ [Cell.num a, Cell.num b, Cell.livre, Cell.num c, Cell.num d] := hm
    simp at hm'
    rcases hm' with rfl | rfl | rfl | rfl
    · omega
    · omega
    · omega
    · omega
  · intro n hm
    simp only [List.mem_map, Cell.num.injEq, exists_eq_right] at hm
    have := hgR n hm
    omega
  · intro n hm
    simp only [List.mem_map, Cell.num.injEq, exists_eq_right] at hm
    have := hoR n hm
    omega
  · show ((List.map Cell.num bl ++ List.map Cell.num il
        ++ (List.map Cell.num [a, b, c, d]).insertIdx 2 Cell.livre
        ++ List.map Cell.num gl ++ List.map Cell.num ol).filterMap Cell.toNumber).Nodup
    have hNfm : (((List.map Cell.num [a, b, c, d]).insertIdx 2 Cell.livre).filterMap
        Cell.toNumber) = [a, b, c, d] := rfl
    simp only [List.filterMap_append, filterMap_toNumber_map_num, hNfm]
    have memBI : ∀ x ∈ bl ++ il, x < 31 := by
      intro x hx
      rcases List.mem_append.mp hx with hx | hx
      · have := hbR x hx; omega
      · have := hiR x hx; omega
    have memBIN : ∀ x ∈ (bl ++ il) ++ [a, b, c, d], x < 46 := by
      intro x hx
      rcases List.mem_append.mp hx with hx | hx
      · have := memBI x hx; omega
      · have := hnR x hx; omega
    have memBING : ∀ x ∈ ((bl ++ il) ++ [a, b, c, d]) ++ gl, x < 61 := by
      intro x hx
      rcases List.mem_append.mp hx with hx | hx
      · have := memBIN x hx; omega
      · have := hgR x hx; omega
    refine nodup_append_bands 61 (nodup_append_bands 46 (nodup_append_bands 31
        (nodup_append_bands 16 hbN hiN (fun x hx => ?_) (fun x hx => ?_))
        hnN memBI (fun x hx => ?_))
        hgN memBIN (fun x hx => ?_))
        hoN memBING (fun x hx => ?_)
    · have := hbR x hx; omega
    · have := hiR x hx; omega
    · have := hnR x hx; omega
    · have := hgR x hx; omega
    · have := hoR x hx; omega
  · rfl
  · show ((List.map Cell.num bl) ++ (List.map Cell.num il)
        ++ ((List.map Cell.num [a, b, c, d]).insertIdx 2 Cell.livre)
        ++ (List.map Cell.num gl) ++ (List.map Cell.num ol)).count Cell.livre = 1
    have hcN' : (((List.map Cell.num [a, b, c, d]).insertIdx 2 Cell.livre).count
        Cell.livre) = 1 := rfl
    simp only [List.count_append, count_livre_map_num, hcN']

/-- A concrete sample stream cycling through the 15 band offsets. -/
def natToFin15 (i : Nat) : Fin 15 := ⟨i % 15, Nat.mod_lt i (by decide)⟩

/-- The card produced by `createValidBingoCard` on five copies of
`natToFin15` with fuel 5. -/
def card0 : BingoCardData :=
  { B := [Cell.num 1, Cell.num 2, Cell.num 3, Cell.num 4, Cell.num 5],
    I := [Cell.num 16, Cell.num 17, Cell.num 18, Cell.num 19, Cell.num 20],
    N := [Cell.num 31, Cell.num 32, Cell.livre, Cell.num 33, Cell.num 34],
    G := [Cell.num 46, Cell.num 47, Cell.num 48, Cell.num 49, Cell.num 50],
    O := [Cell.num 61, Cell.num 62, Cell.num 63, Cell.num 64, Cell.num 65] }

set_option maxRecDepth 10000 in
/-- C9 witness: the generator run on a concrete sample stream yields a card
satisfying every property. -/
theorem createValidBingoCard_spec_witness :
    (∀ n, Cell.num n ∈ card0.B → 1 ≤ n ∧ n ≤ 15) ∧
    (∀ n, Cell.num n ∈ card0.I → 16 ≤ n ∧ n ≤ 30) ∧
    (∀ n, Cell.num n ∈ card0.N → 31 ≤ n ∧ n ≤ 45) ∧
    (∀ n, Cell.num n ∈ card0.G → 46 ≤ n ∧ n ≤ 60) ∧
    (∀ n, Cell.num n ∈ card0.O → 61 ≤ n ∧ n ≤ 75) ∧
    (allNumbersOnCard card0).Nodup ∧
    card0.N.get? 2 = some Cell.livre ∧
    (card0.B ++ card0.I ++ card0.N ++ card0.G ++ card0.O).count Cell.livre = 1 :=
  createValidBingoCard_spec natToFin15 natToFin15 natToFin15 natToFin15 natToFin15
    5 card0 (by decide)
